import Mathlib

/-!
Verification development for the spreadsheet automation scripts in
`custom_scripts/myscripts.py`: the settings key-value store
(`_read_settings` / `_write_setting`), the OAuth credential refresh
(`_get_access_token_from_refresh`), the trial-balance flattening
(`_flatten_trial_balance`), the report metadata extraction (`_get_tb_meta`)
and the sync-status mapping inside `fivetran_status`.

Modelling conventions:
* Python strings are `String`; Python `str.strip` is `pyStrip` (drop
  leading/trailing whitespace), `str.lower` is `pyLower` (character
  map with `Char.toLower`, kept kernel-reducible).
* A spreadsheet cell is an `Option`-valued field; `none` models an empty
  cell (Python `None`), and an absent JSON field is likewise `none`.
* A settings table is the list of rows of the expanded `A1` region, each
  row a pair (key cell, value cell).  Key cells are modelled as strings
  (the `str(raw_key)` conversion is the identity on strings and the
  `try/except` around it can never fire for them).
* Python `dict` is an association list with insert-or-overwrite-in-place
  semantics (`dictInsert`) and first-match lookup (`dictGet`); keys stay
  unique by construction, so `dictGet` agrees with Python lookup.
* HTTP calls are modelled by passing the (already status-checked and
  JSON-parsed) response value to the function that consumes it; a failing
  call is an `Except.error` input where the source catches the failure.
* Reading is a pure function of the table (the source performs no writes
  during `_read_settings`), so "no side effects" holds by construction.
-/

/-- Python `str.strip` on the underlying character list: drop whitespace
from both ends. -/
def pyStripChars (l : List Char) : List Char :=
  ((l.dropWhile Char.isWhitespace).reverse.dropWhile Char.isWhitespace).reverse

/-- Python `str.strip`: drop leading and trailing whitespace. -/
def pyStrip (s : String) : String :=
  ⟨pyStripChars s.data⟩

/-- Python `str.lower`: lower-case every character (kept as a direct
character-list map so that it evaluates inside the kernel). -/
def pyLower (s : String) : String :=
  ⟨s.data.map Char.toLower⟩

/-- Python `dict` insertion: overwrite the value in place when the key is
already bound, otherwise append the new binding (insertion order kept). -/
def dictInsert {V : Type} : List (String × V) → String → V → List (String × V)
  | [], k, v => [(k, v)]
  | p :: rest, k, v =>
      if p.1 = k then (k, v) :: rest else p :: dictInsert rest k v

/-- Python `dict` lookup (`d[k]` / `d.get(k)`). -/
def dictGet {V : Type} : List (String × V) → String → Option V
  | [], _ => none
  | p :: rest, k => if p.1 = k then some p.2 else dictGet rest k

/-- One row of the Settings sheet: key cell (column A) and value cell
(column B).  `none` models an empty/absent cell. -/
abbrev SRow (V : Type) := Option String × Option V

/-- The expanded `A1` region of the Settings sheet, top to bottom. -/
abbrev STable (V : Type) := List (SRow V)

/-- `_read_settings` (myscripts.py lines 51-82): iterate rows top to
bottom, skip rows whose key cell is `None` or `""`, strip the key, skip
the header row whose lowered stripped key is `"key"`, and store
`settings[key] = value` in a Python dict (later duplicates overwrite). -/
def read_settings {V : Type} (values : STable V) : List (String × Option V) :=
  values.foldl
    (fun settings row =>
      match row.1 with
      | none => settings
      | some raw_key =>
          if raw_key = "" then settings
          else
            let key := pyStrip raw_key
            if pyLower key = "key" then settings
            else dictInsert settings key row.2)
    []

/-- One fold step of the spec-side description of `read_all`
(spec section 4.1), acting on the running lookup result for query `q`. -/
def read_all_spec_step {V : Type} (q : String) (acc : Option (Option V))
    (row : SRow V) : Option (Option V) :=
  match row.1 with
  | none => acc
  | some raw_key =>
      if raw_key = "" then acc
      else
        let key := pyStrip raw_key
        if pyLower key = "key" then acc
        else if key = q then some row.2 else acc

/-- Spec-side fold of `read_all` from a given initial lookup result. -/
def read_all_spec_from {V : Type} (q : String) (acc : Option (Option V))
    (values : STable V) : Option (Option V) :=
  values.foldl (read_all_spec_step q) acc

/-- Spec-side description of `read_all(table)[q]` exactly as spec section
4.1 words it: iterate rows top-to-bottom, skip rows whose key cell is
empty/absent, skip the header row (trimmed, case-insensitive key `"key"`),
trim every other key, and let later duplicates overwrite earlier ones.
Kept separate from `read_settings` (which is translated from the source)
so the two can be compared. -/
def read_all_spec {V : Type} (values : STable V) (q : String) :
    Option (Option V) :=
  read_all_spec_from q none values

/-- A row matches the cleaned key `key_clean` in the `_write_setting` scan:
its key cell holds a non-empty string whose stripped form is `key_clean`. -/
def rowMatchB {V : Type} (key_clean : String) (r : SRow V) : Bool :=
  match r.1 with
  | some s => decide (s ≠ "" ∧ pyStrip s = key_clean)
  | none => false

/-- Number of rows of the table matching `key_clean` in the scan sense. -/
def matchCount {V : Type} (table : STable V) (key_clean : String) : Nat :=
  (table.filter (rowMatchB key_clean)).length

/-- The row scan of `_write_setting` (myscripts.py lines 103-118): walk the
rows top to bottom, skip rows whose key cell is `None` or `""`, and on the
first row whose stripped key equals `key_clean` overwrite that row's value
cell and stop.  Returns `none` when no row matches. -/
def writeScan {V : Type} : STable V → String → V → Option (STable V)
  | [], _, _ => none
  | r :: rest, key_clean, v =>
      match r.1 with
      | none => (writeScan rest key_clean v).map (fun t => r :: t)
      | some raw_key =>
          if raw_key = "" then (writeScan rest key_clean v).map (fun t => r :: t)
          else if pyStrip raw_key = key_clean then some ((r.1, some v) :: rest)
          else (writeScan rest key_clean v).map (fun t => r :: t)

/-- `_write_setting` (myscripts.py lines 86-123): strip the key; on an
empty sheet write the pair into row 1; otherwise update the value cell of
the first row whose stripped key matches, and if no row matches append a
new row `(key_clean, value)` after the last row. -/
def write_setting {V : Type} (table : STable V) (key : String) (v : V) :
    STable V :=
  let key_clean := pyStrip key
  match table with
  | [] => [(some key_clean, some v)]
  | _ =>
      match writeScan table key_clean v with
      | some updated => updated
      | none => table ++ [(some key_clean, some v)]

/-- The (already status-checked, JSON-parsed) body returned by the token
endpoint: `access_token` is present, `refresh_token` optional. -/
structure TokenResponse where
  access_token : String
  refresh_token : Option String
deriving DecidableEq

/-- Failures of the credential-refresh flow as observable in the model.
`keyError k` is the generic Python `KeyError` raised by `settings[k]`;
`missingCredential` models the typed error the spec asks for (the source
never produces it, it exists so the two can be told apart). -/
inductive PyError where
  | keyError : String → PyError
  | missingCredential : String → PyError
deriving DecidableEq

/-- Whether an error is the spec's typed `MissingCredential` error. -/
def PyError.isMissingCredential : PyError → Bool
  | .missingCredential _ => true
  | _ => false

/-- `_get_access_token_from_refresh` (myscripts.py lines 126-151): look up
the three credential keys in the settings dict (a missing key raises
`KeyError` before the HTTP POST is made, hence before `resp` is touched);
on success take `access_token` from the response, and if the response
carries a truthy (non-empty) `refresh_token` different from the stored
value, persist it with `_write_setting` under `"xero_refresh_token"`.
The stored value is a cell value (`Option String`); Python compares the
new string against it with `!=`, where a string never equals `None`. -/
def get_access_token_from_refresh (settings : String → Option (Option String))
    (settings_sheet : STable String) (resp : TokenResponse) :
    Except PyError (String × STable String) :=
  match settings "xero_client_id" with
  | none => Except.error (PyError.keyError "xero_client_id")
  | some _client_id =>
  match settings "xero_client_secret" with
  | none => Except.error (PyError.keyError "xero_client_secret")
  | some _client_secret =>
  match settings "xero_refresh_token" with
  | none => Except.error (PyError.keyError "xero_refresh_token")
  | some refresh_token =>
      let access_token := resp.access_token
      match resp.refresh_token with
      | none => Except.ok (access_token, settings_sheet)
      | some new_refresh =>
          if new_refresh ≠ "" ∧ some new_refresh ≠ refresh_token then
            Except.ok (access_token,
              write_setting settings_sheet "xero_refresh_token" new_refresh)
          else Except.ok (access_token, settings_sheet)

/-- The `data.status` object of the Fivetran connection response;
`sync_state` is `none` when the field is absent. -/
structure FivetranData where
  sync_state : Option String
deriving DecidableEq

/-- The sync-state string computed by `fivetran_status` (myscripts.py
lines 533-557) and written to the status cell: on a successful call map
`"scheduled"` to `"Not Syncing"`, `"syncing"` to `"Syncing"`, keep any
other truthy value, and turn a falsy (absent or empty) value into
`"unknown"`; a raised `HTTPError`/exception is caught and rendered as
`"Error: ..."` instead of propagating. -/
def fivetran_status_sync_state (resp : Except String FivetranData) : String :=
  match resp with
  | Except.error exc => "Error: " ++ exc
  | Except.ok d =>
      let sync_state_raw := d.sync_state.getD "unknown"
      if sync_state_raw = "scheduled" then "Not Syncing"
      else if sync_state_raw = "syncing" then "Syncing"
      else if sync_state_raw = "" then "unknown"
      else sync_state_raw

/-- A JSON scalar found in a report cell: string or number. -/
inductive CVal where
  | s : String → CVal
  | n : Int → CVal
deriving DecidableEq

/-- Python truthiness of a cell scalar: `""` and `0` are falsy. -/
def CVal.isFalsy : CVal → Bool
  | .s v => v = ""
  | .n v => v = 0

/-- A cell attribute, e.g. `{Name: "AccountCode", Value: "404"}`.
`name` is `attr.get("Name")`; attribute values are strings in this API
and `attr.get("Value", "")` defaults the absent field to `""`, which the
model folds into the `value` field. -/
structure TBAttr where
  name : Option String
  value : String
deriving DecidableEq

/-- A report cell: optional `Value` and the `Attributes` list
(`cell.get("Attributes", []) or []` makes an absent/null list empty). -/
structure TBCell where
  value : Option CVal
  attributes : List TBAttr
deriving DecidableEq

/-- An inner report row: `RowType` and the `Cells` list
(`row.get("Cells", []) or []`). -/
structure TBInnerRow where
  rowType : Option String
  cells : List TBCell
deriving DecidableEq

/-- A top-level report node: `RowType`, optional `Title`, child `Rows`
(`row.get("Rows", [])`). -/
structure TBSectionRow where
  rowType : Option String
  title : Option String
  rows : List TBInnerRow
deriving DecidableEq

/-- One report of the TrialBalance response: optional `ReportDate`, the
`ReportTitles` list (`report.get("ReportTitles", []) or []`; a `none`
entry models a JSON null title) and the top-level `Rows`. -/
structure TBReport where
  reportDate : Option String
  reportTitles : List (Option String)
  rows : List TBSectionRow
deriving DecidableEq

/-- The TrialBalance response body: `tb_json.get("Reports", [])`. -/
structure TBJson where
  reports : List TBReport
deriving DecidableEq

/-- One flattened output row of `_flatten_trial_balance`. -/
structure TBRowOut where
  account_id : String
  account_code : String
  section_name : String
  account : CVal
  ytd_debit : CVal
  ytd_credit : CVal
deriving DecidableEq

/-- `cell.get("Value", "")` on an optional cell: absent cell or absent
`Value` field both default to `""`. -/
def cellValueD : Option TBCell → CVal
  | some c => c.value.getD (CVal.s "")
  | none => CVal.s ""

/-- `cells[0].get("Value", "") or ""`: the account name, with any falsy
value collapsed to the empty string. -/
def account_name_of (c0 : TBCell) : CVal :=
  let v := c0.value.getD (CVal.s "")
  if v.isFalsy then CVal.s "" else v

/-- The fallback parse of `re.search(r"\(([^()]+)\)\s*$", account_name)`:
after discarding trailing whitespace the string must end in `)`, and the
maximal run of non-parenthesis characters before it must be non-empty and
preceded by `(`; the captured group is that run. -/
def parenCode (s : String) : Option String :=
  match s.data.reverse.dropWhile Char.isWhitespace with
  | ')' :: rest =>
      let content := rest.takeWhile (fun c => c != '(' && c != ')')
      if content = [] then none
      else
        match rest.drop content.length with
        | '(' :: _ => some ⟨content.reverse⟩
        | _ => none
  | _ => none

/-- The value of the last attribute named `"AccountCode"` in the list,
if any (the source's loop has no `break`, so the last match wins). -/
def lastAccountCodeAttr : List TBAttr → Option String
  | [] => none
  | a :: rest =>
      match lastAccountCodeAttr rest with
      | some v => some v
      | none => if a.name = some "AccountCode" then some a.value else none

/-- The account-code resolution of `_flatten_trial_balance` (myscripts.py
lines 215-227): fold over the attribute list keeping the value of each
attribute named `"AccountCode"` (last one wins, starting from `""`); if
the result is falsy (`""`) and the account name is a string, fall back to
the trailing parenthesised token of the name, stripped. -/
def account_code_of (account_name : CVal) (attrs : List TBAttr) : String :=
  let account_code :=
    attrs.foldl
      (fun acc attr => if attr.name = some "AccountCode" then attr.value else acc)
      ""
  if account_code = "" then
    match account_name with
    | CVal.s nm =>
        match parenCode nm with
        | some c => pyStrip c
        | none => ""
    | CVal.n _ => ""
  else account_code

/-- The output row built for one qualifying inner row (myscripts.py lines
207-252): name from cell 0, code from attributes or the parenthesised
fallback, GUID from the code-to-GUID dict at the stripped code (empty when
the code is empty or unmapped), and YTD debit/credit from `cells[-2]` and
`cells[-1]` (Python negative indexing: positions `len-2` and `len-1`) when
at least two cells exist, else `""`. -/
def flatten_row (code_to_guid : String → Option String) (section_name : String)
    (cells : List TBCell) : TBRowOut :=
  let c0 := cells.head?.getD ⟨none, []⟩
  let account_name := account_name_of c0
  let account_code := account_code_of account_name c0.attributes
  let account_guid :=
    if account_code = "" then "" else (code_to_guid (pyStrip account_code)).getD ""
  let ytd_credit :=
    if 2 ≤ cells.length then cellValueD cells[cells.length - 1]? else CVal.s ""
  let ytd_debit :=
    if 2 ≤ cells.length then cellValueD cells[cells.length - 2]? else CVal.s ""
  ⟨account_guid, account_code, section_name, account_name, ytd_debit, ytd_credit⟩

/-- `_flatten_trial_balance` (myscripts.py lines 174-254): take the first
report (empty output when there is none); for each top-level node tagged
`"Section"` take its title (falsy collapsed to `""`) as the section name;
within it, for each child tagged `"Row"` whose cell list is non-empty,
append one output row. -/
def flatten_trial_balance (tb_json : TBJson)
    (code_to_guid : String → Option String) : List TBRowOut :=
  match tb_json.reports with
  | [] => []
  | report :: _ =>
      report.rows.foldl
        (fun rows_out row =>
          if row.rowType ≠ some "Section" then rows_out
          else
            let section_name := row.title.getD ""
            row.rows.foldl
              (fun acc inner =>
                if inner.rowType ≠ some "Row" then acc
                else if inner.cells = [] then acc
                else acc ++ [flatten_row code_to_guid section_name inner.cells])
              rows_out)
        []

/-- The claim-side description of one output row (spec section 4.3
wording): same name/code/GUID resolution, with the debit taken from the
second-to-last cell and the credit from the last cell, both `""` when the
row has fewer than two cells.  Kept separate from `flatten_row` (which is
translated from the source) so the two can be compared. -/
def spec_row (code_to_guid : String → Option String) (section_name : String)
    (ir : TBInnerRow) : TBRowOut :=
  let c0 := ir.cells.head?.getD ⟨none, []⟩
  let account_name := account_name_of c0
  let account_code := account_code_of account_name c0.attributes
  let account_guid :=
    if account_code = "" then "" else (code_to_guid (pyStrip account_code)).getD ""
  let ytd_debit :=
    if ir.cells.length < 2 then CVal.s "" else cellValueD ir.cells.dropLast.getLast?
  let ytd_credit :=
    if ir.cells.length < 2 then CVal.s "" else cellValueD ir.cells.getLast?
  ⟨account_guid, account_code, section_name, account_name, ytd_debit, ytd_credit⟩

/-- The remainder of the character list after the first occurrence of
`pat`, if `pat` occurs (`t.split(pat, 1)[1]` when `pat in t`). -/
def dropUntilAfter (pat : List Char) : List Char → Option (List Char)
  | [] => if pat = [] then some [] else none
  | c :: t =>
      if pat.isPrefixOf (c :: t) then some ((c :: t).drop pat.length)
      else dropUntilAfter pat t

/-- `s.split(pat, 1)[1]` when `pat in s`, else `none`. -/
def splitRestAfter (s pat : String) : Option String :=
  (dropUntilAfter pat.data s.data).map (fun l => ⟨l⟩)

/-- The first string title containing `"As at"`, returned as the remainder
after that substring (the source loop `break`s on the first such title;
`None` titles fail the `isinstance` check and are passed over). -/
def findAsAt : List (Option String) → Option String
  | [] => none
  | none :: ts => findAsAt ts
  | some t :: ts =>
      match splitRestAfter t "As at" with
      | some rest => some rest
      | none => findAsAt ts

/-- `_get_tb_meta` (myscripts.py lines 257-289): organisation name
defaults to `""` and the report date to `fallback_date`; a truthy
`ReportDate` replaces the date; when at least two titles exist, a truthy
`titles[1]` becomes the organisation name; then the first title containing
`"As at"` has its remainder stripped and, when truthy, it replaces the
report date (even one taken from `ReportDate`). -/
def get_tb_meta (tb_json : TBJson) (fallback_date : String) : String × String :=
  match tb_json.reports with
  | [] => ("", fallback_date)
  | report :: _ =>
      let report_date0 :=
        match report.reportDate with
        | some rd => if rd = "" then fallback_date else rd
        | none => fallback_date
      let org_name :=
        if 2 ≤ report.reportTitles.length then
          match report.reportTitles[1]? with
          | some (some t) => if t = "" then "" else t
          | _ => ""
        else ""
      let report_date :=
        match findAsAt report.reportTitles with
        | some rest => if pyStrip rest = "" then report_date0 else pyStrip rest
        | none => report_date0
      (org_name, report_date)

/-- Concrete settings lookup used to exercise the credential refresh:
all three Xero credential keys bound, refresh token `"old"`. -/
def wSettingsC2 : String → Option (Option String) := fun q =>
  if q = "xero_client_id" then some (some "id")
  else if q = "xero_client_secret" then some (some "sec")
  else if q = "xero_refresh_token" then some (some "old")
  else none

/-- Concrete settings table matching `wSettingsC2`. -/
def wTableC2 : STable String := [(some "xero_refresh_token", some "old")]

/-- Dropping a prefix satisfying `p` twice is the same as dropping once. -/
theorem dropWhile_dropWhile_self {α : Type} (p : α → Bool) (l : List α) :
    (l.dropWhile p).dropWhile p = l.dropWhile p := by
  induction l with
  | nil => rfl
  | cons x xs ih =>
      rw [List.dropWhile_cons]
      by_cases h : p x
      · simpa [h] using ih
      · simp [List.dropWhile_cons, h]

/-- The head of `l.dropWhile p`, when it exists, fails `p`. -/
theorem head?_dropWhile_false {α : Type} (p : α → Bool) (l : List α) :
    ∀ a, (l.dropWhile p).head? = some a → p a = false := by
  intro a ha
  have h := List.head?_dropWhile_not p l
  rw [ha] at h
  exact h

/-- A list whose head (if any) fails `p` is unchanged by `dropWhile p`. -/
theorem dropWhile_eq_self_of_head {α : Type} (p : α → Bool) (l : List α)
    (h : ∀ a, l.head? = some a → p a = false) : l.dropWhile p = l := by
  cases l with
  | nil => rfl
  | cons x xs =>
      have hx : p x = false := h x rfl
      simp [List.dropWhile_cons, hx]

/-- A non-empty suffix shares its last element with the full list. -/
theorem getLast?_of_suffix {α : Type} {s l : List α} (h : s <:+ l)
    (hne : s ≠ []) : s.getLast? = l.getLast? := by
  obtain ⟨t, rfl⟩ := h
  exact (List.getLast?_append_of_ne_nil t hne).symm

/-- Stripping both ends of a character list is idempotent. -/
theorem pyStripChars_idem (l : List Char) :
    pyStripChars (pyStripChars l) = pyStripChars l := by
  set p := Char.isWhitespace with hp
  set A := l.dropWhile p with hA
  set S := A.reverse.dropWhile p with hS
  have hfix : S.reverse.dropWhile p = S.reverse := by
    apply dropWhile_eq_self_of_head
    intro a ha
    rw [List.head?_reverse] at ha
    have hSne : S ≠ [] := by
      intro hnil
      rw [hnil] at ha
      simp at ha
    have hlast : S.getLast? = A.reverse.getLast? :=
      getLast?_of_suffix (hS ▸ List.dropWhile_suffix p) hSne
    rw [hlast, List.getLast?_reverse, hA] at ha
    exact head?_dropWhile_false p l a ha
  show ((S.reverse.dropWhile p).reverse.dropWhile p).reverse = S.reverse
  rw [hfix, List.reverse_reverse, hS, dropWhile_dropWhile_self]

/-- Python `str.strip` is idempotent. -/
theorem pyStrip_idem (s : String) : pyStrip (pyStrip s) = pyStrip s := by
  show (⟨pyStripChars (⟨pyStripChars s.data⟩ : String).data⟩ : String)
      = ⟨pyStripChars s.data⟩
  rw [show (⟨pyStripChars s.data⟩ : String).data = pyStripChars s.data from rfl,
    pyStripChars_idem]

/-- Lookup after a Python-dict insert: the inserted key reads back the new
value, every other key is unaffected. -/
theorem dictGet_dictInsert {V : Type} (m : List (String × V)) (k q : String)
    (v : V) :
    dictGet (dictInsert m k v) q = if k = q then some v else dictGet m q := by
  induction m with
  | nil =>
      simp [dictInsert, dictGet]
  | cons p rest ih =>
      unfold dictInsert
      by_cases hpk : p.1 = k
      · rw [if_pos hpk]
        by_cases hkq : k = q
        · simp [dictGet, hkq]
        · have hpq : ¬ p.1 = q := by rw [hpk]; exact hkq
          simp [dictGet, hkq, hpq]
      · rw [if_neg hpk]
        by_cases hpq : p.1 = q
        · have hkq : ¬ k = q := fun h => hpk (by rw [h, ← hpq])
          simp [dictGet, hpq, hkq]
        · simp [dictGet, hpq, ih]

/-- The fold of `_read_settings`, looked up at `q`, advances exactly like
the spec-side fold of `read_all` started from the current lookup value. -/
theorem dictGet_read_settings_foldl {V : Type} (T : STable V)
    (q : String) :
    ∀ m : List (String × Option V),
      dictGet
        (T.foldl
          (fun settings row =>
            match row.1 with
            | none => settings
            | some raw_key =>
                if raw_key = "" then settings
                else
                  let key := pyStrip raw_key
                  if pyLower key = "key" then settings
                  else dictInsert settings key row.2)
          m) q
        = read_all_spec_from q (dictGet m q) T := by
  induction T with
  | nil => intro m; rfl
  | cons r rest ih =>
      intro m
      rcases r with ⟨rk, rv⟩
      cases rk with
      | none =>
          simpa [read_all_spec_from, read_all_spec_step] using ih m
      | some raw_key =>
          by_cases h0 : raw_key = ""
          · simpa [read_all_spec_from, read_all_spec_step, h0] using ih m
          · by_cases hh : pyLower (pyStrip raw_key) = "key"
            · simpa [read_all_spec_from, read_all_spec_step, h0, hh] using ih m
            · by_cases hq : pyStrip raw_key = q
              · rw [hq] at hh
                have := ih (dictInsert m q rv)
                simpa [read_all_spec_from, read_all_spec_step, h0, hh, hq,
                  dictGet_dictInsert] using this
              · have := ih (dictInsert m (pyStrip raw_key) rv)
                simpa [read_all_spec_from, read_all_spec_step, h0, hh, hq,
                  dictGet_dictInsert] using this

/-- The source's `_read_settings`, looked up at any key, computes exactly
the spec-side last-match-wins lookup. -/
theorem dictGet_read_settings {V : Type} (T : STable V) (q : String) :
    dictGet (read_settings T) q = read_all_spec T q := by
  simpa [read_settings, read_all_spec] using
    dictGet_read_settings_foldl T q []

/-- The spec-side fold splits over list append. -/
theorem read_all_spec_from_append {V : Type} (q : String)
    (a : Option (Option V)) (T T2 : STable V) :
    read_all_spec_from q a (T ++ T2)
      = read_all_spec_from q (read_all_spec_from q a T) T2 := by
  simp [read_all_spec_from, List.foldl_append]

/-- Rows that do not match `q` in the scan sense leave the lookup fold
unchanged at `q`. -/
theorem read_all_spec_from_no_match {V : Type} {q : String} {T : STable V}
    (h : ∀ r ∈ T, rowMatchB q r = false) (a : Option (Option V)) :
    read_all_spec_from q a T = a := by
  induction T generalizing a with
  | nil => rfl
  | cons r rest ih =>
      have hr : rowMatchB q r = false := h r (by simp)
      have hrest : ∀ x ∈ rest, rowMatchB q x = false := by
        intro x hx; exact h x (by simp [hx])
      rcases r with ⟨rk, rv⟩
      cases rk with
      | none =>
          simpa [read_all_spec_from, read_all_spec_step] using ih hrest a
      | some s =>
          by_cases h0 : s = ""
          · simpa [read_all_spec_from, read_all_spec_step, h0] using ih hrest a
          · have hne : pyStrip s ≠ q := by
              intro hq
              simp [rowMatchB, h0, hq] at hr
            by_cases hh : pyLower (pyStrip s) = "key"
            · simpa [read_all_spec_from, read_all_spec_step, h0, hh] using
                ih hrest a
            · simpa [read_all_spec_from, read_all_spec_step, h0, hh, hne] using
                ih hrest a

/-- A trailing row holding a non-empty, non-header key that strips to `q`
determines the lookup at `q` (last write wins). -/
theorem read_all_spec_append_last {V : Type} (T : STable V) (s : String)
    (v : Option V) (q : String) (hs : s ≠ "") (hkey : pyStrip s = q)
    (hhd : ¬ pyLower q = "key") :
    read_all_spec (T ++ [(some s, v)]) q = some v := by
  rw [read_all_spec, read_all_spec_from_append]
  simp [read_all_spec_from, read_all_spec_step, hs, hkey, hhd]

/-- The scan of `_write_setting` finds no row exactly when no row
matches. -/
theorem writeScan_eq_none_iff {V : Type} (T : STable V) (K : String) (v : V) :
    writeScan T K v = none ↔ ∀ r ∈ T, rowMatchB K r = false := by
  induction T with
  | nil => simp [writeScan]
  | cons r rest ih =>
      rcases r with ⟨rk, rv⟩
      cases rk with
      | none =>
          simp [writeScan, rowMatchB, Option.map_eq_none', ih]
      | some s =>
          by_cases h0 : s = ""
          · simp [writeScan, rowMatchB, h0, Option.map_eq_none', ih]
          · by_cases hm : pyStrip s = K
            · simp [writeScan, rowMatchB, h0, hm]
            · simp [writeScan, rowMatchB, h0, hm, Option.map_eq_none', ih]

/-- Unfolding of the scan on a row with an empty key cell. -/
theorem writeScan_cons_none {V : Type} (rv0 : Option V) (rest : STable V)
    (K : String) (v : V) :
    writeScan ((none, rv0) :: rest) K v
      = (writeScan rest K v).map (fun t => (none, rv0) :: t) := rfl

/-- Unfolding of the scan on a row with a string key cell. -/
theorem writeScan_cons_some {V : Type} (s0 : String) (rv0 : Option V)
    (rest : STable V) (K : String) (v : V) :
    writeScan ((some s0, rv0) :: rest) K v
      = (if s0 = "" then (writeScan rest K v).map (fun t => (some s0, rv0) :: t)
         else if pyStrip s0 = K then some ((some s0, some v) :: rest)
         else (writeScan rest K v).map (fun t => (some s0, rv0) :: t)) := rfl

/-- When the scan finds a row, the table splits as a non-matching prefix,
the matched row (whose value cell gets overwritten), and an untouched
tail. -/
theorem writeScan_eq_some {V : Type} {T T' : STable V} {K : String} {v : V}
    (h : writeScan T K v = some T') :
    ∃ pre s rv post,
      T = pre ++ (some s, rv) :: post ∧
      T' = pre ++ (some s, (some v : Option V)) :: post ∧
      (∀ r ∈ pre, rowMatchB K r = false) ∧ s ≠ "" ∧ pyStrip s = K := by
  induction T generalizing T' with
  | nil => simp [writeScan] at h
  | cons r rest ih =>
      rcases r with ⟨rk, rv0⟩
      cases rk with
      | none =>
          rw [writeScan_cons_none, Option.map_eq_some'] at h
          obtain ⟨t, ht, hT'⟩ := h
          obtain ⟨pre, s, rv, post, hT, hT2, hpre, hs, hK⟩ := ih ht
          refine ⟨(none, rv0) :: pre, s, rv, post, by simp [hT],
            by simp [← hT', hT2], ?_, hs, hK⟩
          intro x hx
          rcases List.mem_cons.mp hx with hx | hx
          · subst hx; rfl
          · exact hpre x hx
      | some s0 =>
          rw [writeScan_cons_some] at h
          by_cases h0 : s0 = ""
          · rw [if_pos h0, Option.map_eq_some'] at h
            obtain ⟨t, ht, hT'⟩ := h
            obtain ⟨pre, s, rv, post, hT, hT2, hpre, hs, hK⟩ := ih ht
            refine ⟨(some s0, rv0) :: pre, s, rv, post, by simp [hT],
              by simp [← hT', hT2], ?_, hs, hK⟩
            intro x hx
            rcases List.mem_cons.mp hx with hx | hx
            · subst hx; simp [rowMatchB, h0]
            · exact hpre x hx
          · rw [if_neg h0] at h
            by_cases hm : pyStrip s0 = K
            · rw [if_pos hm] at h
              refine ⟨[], s0, rv0, rest, by simp, ?_, by simp, h0, hm⟩
              simpa using h.symm
            · rw [if_neg hm, Option.map_eq_some'] at h
              obtain ⟨t, ht, hT'⟩ := h
              obtain ⟨pre, s, rv, post, hT, hT2, hpre, hs, hK⟩ := ih ht
              refine ⟨(some s0, rv0) :: pre, s, rv, post, by simp [hT],
                by simp [← hT', hT2], ?_, hs, hK⟩
              intro x hx
              rcases List.mem_cons.mp hx with hx | hx
              · subst hx; simp [rowMatchB, h0, hm]
              · exact hpre x hx

/-- When no row matches, `_write_setting` appends the stripped key and the
value as a fresh last row (the empty-sheet branch writes the same row into
an empty table). -/
theorem write_setting_eq_of_scan_none {V : Type} {T : STable V} {k : String}
    {v : V} (h : writeScan T (pyStrip k) v = none) :
    write_setting T k v = T ++ [(some (pyStrip k), some v)] := by
  cases T with
  | nil => rfl
  | cons r rest => simp [write_setting, h]

/-- When the scan finds a row, `_write_setting` returns the updated
table. -/
theorem write_setting_eq_of_scan_some {V : Type} {T T' : STable V}
    {k : String} {v : V} (h : writeScan T (pyStrip k) v = some T') :
    write_setting T k v = T' := by
  cases T with
  | nil => simp [writeScan] at h
  | cons r rest => simp [write_setting, h]

/-- `_write_setting` only ever touches the entry of its own stripped key:
reading any other key afterwards gives the old answer. -/
theorem read_all_spec_write_frame {V : Type} (T : STable V) (k : String)
    (v : V) (q : String) (hq : ¬ q = pyStrip k) :
    read_all_spec (write_setting T k v) q = read_all_spec T q := by
  have hne : ¬ pyStrip k = q := fun h => hq h.symm
  cases hscan : writeScan T (pyStrip k) v with
  | none =>
      rw [write_setting_eq_of_scan_none hscan, read_all_spec,
        read_all_spec_from_append]
      by_cases h0 : pyStrip k = ""
      · simp [read_all_spec_from, read_all_spec_step, h0, read_all_spec]
      · simp [read_all_spec_from, read_all_spec_step, h0, pyStrip_idem,
          read_all_spec, hne]
  | some T' =>
      rw [write_setting_eq_of_scan_some hscan]
      obtain ⟨pre, s, rv, post, hT, hT', hpre, hs, hK⟩ := writeScan_eq_some hscan
      have hnsq : ¬ pyStrip s = q := by rw [hK]; exact hne
      subst hT hT'
      rw [read_all_spec, read_all_spec,
        show pre ++ ((some s, (some v : Option V)) :: post)
            = (pre ++ [(some s, some v)]) ++ post by simp,
        show pre ++ ((some s, rv) :: post)
            = (pre ++ [(some s, rv)]) ++ post by simp,
        read_all_spec_from_append, read_all_spec_from_append,
        read_all_spec_from_append, read_all_spec_from_append]
      congr 1
      simp [read_all_spec_from, read_all_spec_step, hs, hnsq]

/-- After `_write_setting` with a non-empty, non-header stripped key on a
table holding at most one matching row, reading that key gives the new
value. -/
theorem read_all_spec_write_at {V : Type} (T : STable V) (k : String) (v : V)
    (hne : pyStrip k ≠ "") (hhd : ¬ pyLower (pyStrip k) = "key")
    (hcnt : matchCount T (pyStrip k) ≤ 1) :
    read_all_spec (write_setting T k v) (pyStrip k) = some (some v) := by
  cases hscan : writeScan T (pyStrip k) v with
  | none =>
      rw [write_setting_eq_of_scan_none hscan]
      exact read_all_spec_append_last T (pyStrip k) (some v) (pyStrip k) hne
        (pyStrip_idem k) hhd
  | some T' =>
      rw [write_setting_eq_of_scan_some hscan]
      obtain ⟨pre, s, rv, post, hT, hT', hpre, hs, hK⟩ := writeScan_eq_some hscan
      have hmatch : rowMatchB (pyStrip k) ((some s, rv) : SRow V) = true := by
        simp [rowMatchB, hs, hK]
      subst hT hT'
      have hpost : ∀ r ∈ post, rowMatchB (pyStrip k) r = false := by
        have h1 : (List.filter (rowMatchB (pyStrip k)) post).length = 0 := by
          have hc := hcnt
          simp [matchCount, List.filter_append, List.filter_cons, hmatch] at hc
          omega
        have h2 : List.filter (rowMatchB (pyStrip k)) post = [] :=
          List.length_eq_zero.mp h1
        intro r hr
        cases hb : rowMatchB (pyStrip k) r with
        | false => rfl
        | true =>
            have : r ∈ List.filter (rowMatchB (pyStrip k)) post :=
              List.mem_filter.mpr ⟨hr, hb⟩
            simp [h2] at this
      rw [read_all_spec,
        show pre ++ ((some s, (some v : Option V)) :: post)
            = (pre ++ [(some s, some v)]) ++ post by simp,
        read_all_spec_from_append,
        read_all_spec_from_no_match hpost, read_all_spec_from_append]
      simp [read_all_spec_from, read_all_spec_step, hs, hK, hhd]

/-- Scanning past a scan-free prefix continues in the tail, re-attaching
the prefix on success. -/
theorem writeScan_append_of_none {V : Type} {T : STable V} {K : String}
    {v : V} (h : writeScan T K v = none) (T2 : STable V) :
    writeScan (T ++ T2) K v = (writeScan T2 K v).map (fun t => T ++ t) := by
  induction T with
  | nil =>
      cases hx : writeScan T2 K v <;> simp [hx]
  | cons r rest ih =>
      rcases r with ⟨rk, rv0⟩
      cases rk with
      | none =>
          rw [writeScan_cons_none] at h
          have hrest : writeScan rest K v = none := by
            cases hx : writeScan rest K v with
            | none => rfl
            | some t => rw [hx] at h; simp at h
          rw [List.cons_append, writeScan_cons_none, ih hrest]
          cases hx : writeScan T2 K v <;> simp [hx]
      | some s0 =>
          rw [writeScan_cons_some] at h
          by_cases h0 : s0 = ""
          · rw [if_pos h0] at h
            have hrest : writeScan rest K v = none := by
              cases hx : writeScan rest K v with
              | none => rfl
              | some t => rw [hx] at h; simp at h
            rw [List.cons_append, writeScan_cons_some, if_pos h0, ih hrest]
            cases hx : writeScan T2 K v <;> simp [hx]
          · rw [if_neg h0] at h
            by_cases hm : pyStrip s0 = K
            · rw [if_pos hm] at h; simp at h
            · rw [if_neg hm] at h
              have hrest : writeScan rest K v = none := by
                cases hx : writeScan rest K v with
                | none => rfl
                | some t => rw [hx] at h; simp at h
              rw [List.cons_append, writeScan_cons_some, if_neg h0, if_neg hm,
                ih hrest]
              cases hx : writeScan T2 K v <;> simp [hx]

/-- Once the spec-side lookup fold holds a value it never loses it. -/
theorem read_all_spec_from_isSome {V : Type} (q : String) (T : STable V) :
    ∀ y : Option V, (read_all_spec_from q (some y) T).isSome := by
  induction T with
  | nil => intro y; rfl
  | cons r rest ih =>
      intro y
      rcases r with ⟨rk, rv⟩
      cases rk with
      | none => simpa [read_all_spec_from, read_all_spec_step] using ih y
      | some s =>
          by_cases h0 : s = ""
          · simpa [read_all_spec_from, read_all_spec_step, h0] using ih y
          · by_cases hh : pyLower (pyStrip s) = "key"
            · simpa [read_all_spec_from, read_all_spec_step, h0, hh] using ih y
            · by_cases hq : pyStrip s = q
              · rw [hq] at hh
                simpa [read_all_spec_from, read_all_spec_step, h0, hh, hq]
                  using ih rv
              · simpa [read_all_spec_from, read_all_spec_step, h0, hh, hq]
                  using ih y

/-- A row matching a non-header key forces the lookup at that key to hold
a value. -/
theorem read_all_spec_ne_none_of_match {V : Type} {T : STable V} {K : String}
    (hhd : ¬ pyLower K = "key") {r : SRow V} (hr : r ∈ T)
    (hm : rowMatchB K r = true) : read_all_spec T K ≠ none := by
  obtain ⟨pre, post, rfl⟩ := List.append_of_mem hr
  rcases r with ⟨rk, rv⟩
  cases rk with
  | none => simp [rowMatchB] at hm
  | some s =>
      have hs : s ≠ "" ∧ pyStrip s = K := by simpa [rowMatchB] using hm
      rw [read_all_spec,
        show pre ++ ((some s, rv) :: post) = (pre ++ [(some s, rv)]) ++ post
          by simp,
        read_all_spec_from_append, read_all_spec_from_append]
      have hstep :
          read_all_spec_from K (read_all_spec_from K none pre) [(some s, rv)]
            = some rv := by
        simp [read_all_spec_from, read_all_spec_step, hs.1, hs.2, hhd]
      rw [hstep]
      intro hnone
      have := read_all_spec_from_isSome K post rv
      rw [hnone] at this
      exact Bool.false_ne_true this

/-- C6: `read_all` (`_read_settings`) builds its result by iterating rows
top to bottom, skipping rows whose key cell is empty or absent, skipping
exactly the rows whose trimmed case-insensitive key equals "key", trimming
every other key, and letting later duplicates overwrite earlier ones: at
every query key the mapping's lookup coincides with the spec-side
last-match-wins fold `read_all_spec`.  An entirely empty table and a
table holding only the header row ("Key", "Value") both yield an empty
mapping; the read is a pure function of the table, so it has no side
effects on it. -/
theorem c6_read_settings_spec (V : Type) (T : STable V) (q : String) :
    dictGet (read_settings T) q = read_all_spec T q ∧
    read_settings ([] : STable V) = [] ∧
    read_settings ([(some "Key", some "Value")] : STable String) = [] := by
  refine ⟨dictGet_read_settings T q, rfl, ?_⟩
  rfl

/-- C1, counterexample to the claim as stated: the key `"key"` strips to a
non-empty string and is absent from `read_all` of the empty table, yet
after `upsert([], "key", "v")` the mapping still does not contain it (the
reader treats the written row as the header and skips it), so
`read_all(T)[k] == v` fails. -/
theorem c1_counterexample :
    pyStrip "key" ≠ "" ∧
    dictGet (read_settings ([] : STable String)) (pyStrip "key") = none ∧
    write_setting ([] : STable String) "key" "v"
        = [(some "key", some "v")] ∧
    dictGet (read_settings ([(some "key", some "v")] : STable String))
        (pyStrip "key") = none := by
  refine ⟨by decide, rfl, rfl, rfl⟩

/-- C1 (amended): for every table `T`, value `v` and key `k` whose trimmed
form is non-empty, is not the case-insensitive header token "key", and is
not present in `read_all(T)`: `upsert(T, k, v)` appends the single row
(trim k, v), after which `read_all` maps trim k to `v`; a second
`upsert` with the same key `k` overwrites the value cell of that same row
(the first row whose trimmed key equals trim k), leaving the row count
unchanged rather than appending a duplicate, and `read_all` then maps
trim k to the new value. -/
theorem c1_upsert_roundtrip {V : Type} (T : STable V) (k : String) (v v2 : V)
    (h1 : pyStrip k ≠ "") (h2 : ¬ pyLower (pyStrip k) = "key")
    (h3 : dictGet (read_settings T) (pyStrip k) = none) :
    write_setting T k v = T ++ [(some (pyStrip k), some v)] ∧
    dictGet (read_settings (write_setting T k v)) (pyStrip k)
        = some (some v) ∧
    write_setting (write_setting T k v) k v2
        = T ++ [(some (pyStrip k), some v2)] ∧
    (write_setting (write_setting T k v) k v2).length
        = (write_setting T k v).length ∧
    dictGet (read_settings (write_setting (write_setting T k v) k v2))
        (pyStrip k) = some (some v2) := by
  rw [dictGet_read_settings] at h3
  have hnomatch : ∀ r ∈ T, rowMatchB (pyStrip k) r = false := by
    intro r hr
    cases hb : rowMatchB (pyStrip k) r with
    | false => rfl
    | true => exact absurd h3 (read_all_spec_ne_none_of_match h2 hr hb)
  have hscan1 : writeScan T (pyStrip k) v = none :=
    (writeScan_eq_none_iff T (pyStrip k) v).mpr hnomatch
  have hw1 : write_setting T k v = T ++ [(some (pyStrip k), some v)] :=
    write_setting_eq_of_scan_none hscan1
  have hscan0 : writeScan T (pyStrip k) v2 = none :=
    (writeScan_eq_none_iff T (pyStrip k) v2).mpr hnomatch
  have hsingle :
      writeScan ([(some (pyStrip k), some v)] : STable V) (pyStrip k) v2
        = some [(some (pyStrip k), some v2)] := by
    rw [writeScan_cons_some, if_neg h1, if_pos (pyStrip_idem k)]
  have hscan2 :
      writeScan (T ++ [(some (pyStrip k), some v)]) (pyStrip k) v2
        = some (T ++ [(some (pyStrip k), some v2)]) := by
    rw [writeScan_append_of_none hscan0, hsingle]
    rfl
  have hw2 : write_setting (write_setting T k v) k v2
      = T ++ [(some (pyStrip k), some v2)] := by
    rw [hw1]
    exact write_setting_eq_of_scan_some hscan2
  refine ⟨hw1, ?_, hw2, ?_, ?_⟩
  · rw [hw1, dictGet_read_settings]
    exact read_all_spec_append_last T (pyStrip k) (some v) (pyStrip k) h1
      (pyStrip_idem k) h2
  · rw [hw2, hw1]
    simp
  · rw [hw2, dictGet_read_settings]
    exact read_all_spec_append_last T (pyStrip k) (some v2) (pyStrip k) h1
      (pyStrip_idem k) h2

/-- C1 witness: a concrete run of the round trip on a one-row table and
the fresh key `"a"`. -/
theorem c1_upsert_roundtrip_witness :
    (pyStrip "a" ≠ "" ∧ ¬ pyLower (pyStrip "a") = "key" ∧
      dictGet (read_settings ([(some "host", some "h")] : STable String))
        (pyStrip "a") = none) ∧
    (write_setting ([(some "host", some "h")] : STable String) "a" "1"
        = [(some "host", some "h")] ++ [(some (pyStrip "a"), some "1")] ∧
    dictGet
        (read_settings
          (write_setting ([(some "host", some "h")] : STable String) "a" "1"))
        (pyStrip "a") = some (some "1") ∧
    write_setting
        (write_setting ([(some "host", some "h")] : STable String) "a" "1")
        "a" "2"
        = [(some "host", some "h")] ++ [(some (pyStrip "a"), some "2")] ∧
    (write_setting
        (write_setting ([(some "host", some "h")] : STable String) "a" "1")
        "a" "2").length
        = (write_setting ([(some "host", some "h")] : STable String)
            "a" "1").length ∧
    dictGet
        (read_settings
          (write_setting
            (write_setting ([(some "host", some "h")] : STable String)
              "a" "1") "a" "2"))
        (pyStrip "a") = some (some "2")) :=
  ⟨⟨by decide, by decide, by decide⟩,
    c1_upsert_roundtrip [(some "host", some "h")] "a" "1" "2"
      (by decide) (by decide) (by decide)⟩

/-- C10, counterexample to the claim as stated: on a table whose only row
has the whitespace-only key `" "`, `upsert(T, "", v)` matches that row
(both keys strip to `""`), overwrites its value cell in place and leaves
the row count at 1 instead of growing the table. -/
theorem c10_counterexample :
    write_setting ([(some " ", some "x")] : STable String) "" "v"
        = [(some " ", some "v")] ∧
    (write_setting ([(some " ", some "x")] : STable String) "" "v").length
        = 1 :=
  ⟨rfl, rfl⟩

/-- C10 (amended): an upsert whose key trims to the empty string matches an
existing row exactly when some row's key cell is a non-empty string that
itself trims to empty (whitespace-only); on every table with no such
whitespace-only key cell the scan skips all rows (it skips empty key
cells), so each `upsert(T, "", v)` appends a fresh row `("", v)` and
repeated calls grow the table by one row each time instead of updating in
place. -/
theorem c10_empty_key_append {V : Type} (T : STable V) (k : String)
    (v v2 : V) (hk : pyStrip k = "")
    (hT : ∀ r ∈ T, rowMatchB "" r = false) :
    write_setting T k v = T ++ [(some "", some v)] ∧
    write_setting (write_setting T k v) k v2
        = T ++ [(some "", some v), (some "", some v2)] ∧
    (write_setting T k v).length = T.length + 1 ∧
    (write_setting (write_setting T k v) k v2).length = T.length + 2 := by
  have hscan1 : writeScan T (pyStrip k) v = none := by
    rw [hk]
    exact (writeScan_eq_none_iff T "" v).mpr hT
  have hw1 : write_setting T k v = T ++ [(some "", some v)] := by
    have := write_setting_eq_of_scan_none hscan1
    rwa [hk] at this
  have hT1 : ∀ r ∈ T ++ [((some "" : Option String), (some v : Option V))],
      rowMatchB "" r = false := by
    intro r hr
    rcases List.mem_append.mp hr with hr | hr
    · exact hT r hr
    · have : r = ((some "" : Option String), (some v : Option V)) := by
        simpa using hr
      subst this
      simp [rowMatchB]
  have hscan2 :
      writeScan (T ++ [((some "" : Option String), (some v : Option V))])
        (pyStrip k) v2 = none := by
    rw [hk]
    exact (writeScan_eq_none_iff _ "" v2).mpr hT1
  have hw2 : write_setting (write_setting T k v) k v2
      = T ++ [(some "", some v), (some "", some v2)] := by
    rw [hw1]
    have := write_setting_eq_of_scan_none hscan2
    rw [hk] at this
    rw [this]
    simp
  refine ⟨hw1, hw2, ?_, ?_⟩
  · rw [hw1]; simp
  · rw [hw2]; simp

/-- C10 witness: two empty-key upserts on a clean one-row table append one
row each. -/
theorem c10_empty_key_append_witness :
    (pyStrip "" = "" ∧
      ∀ r ∈ ([(some "a", some "x")] : STable String),
        rowMatchB "" r = false) ∧
    (write_setting ([(some "a", some "x")] : STable String) "" "1"
        = [(some "a", some "x")] ++ [(some "", some "1")] ∧
    write_setting
        (write_setting ([(some "a", some "x")] : STable String) "" "1")
        "" "2"
        = [(some "a", some "x")] ++ [(some "", some "1"), (some "", some "2")] ∧
    (write_setting ([(some "a", some "x")] : STable String) "" "1").length
        = ([(some "a", some "x")] : STable String).length + 1 ∧
    (write_setting
        (write_setting ([(some "a", some "x")] : STable String) "" "1")
        "" "2").length
        = ([(some "a", some "x")] : STable String).length + 2) :=
  ⟨⟨by decide, by decide⟩,
    c10_empty_key_append [(some "a", some "x")] "" "1" "2"
      (by decide) (by decide)⟩

/-- C2, counterexample to the claim as stated: the token response carries
`refresh_token = ""`, which is present and differs from the stored value
`"old"`, yet the call returns with the settings table untouched (the
source requires a *truthy* new token), so the store does not contain the
new value. -/
theorem c2_counterexample :
    get_access_token_from_refresh wSettingsC2 wTableC2 ⟨"tok", some ""⟩
        = Except.ok ("tok", wTableC2) ∧
    wSettingsC2 "xero_refresh_token" = some (some "old") ∧
    (some "" : Option String) ≠ some "old" ∧
    dictGet (read_settings wTableC2) "xero_refresh_token"
        = some (some "old") :=
  ⟨rfl, rfl, by decide, rfl⟩

/-- C2 (amended): after a successful `_get_access_token_from_refresh` on a
table holding at most one row keyed `xero_refresh_token`: a *non-empty*
response `refresh_token` differing from the stored value is persisted
under `"xero_refresh_token"` and readable back, and every other settings
key reads unchanged (so the access token is never stored under any other
key); when the response omits `refresh_token`, carries an empty one, or
repeats the stored value, the table is returned entirely unchanged. -/
theorem c2_refresh_persistence (settings : String → Option (Option String))
    (table : STable String) (resp : TokenResponse) (cid cs sv : Option String)
    (h1 : settings "xero_client_id" = some cid)
    (h2 : settings "xero_client_secret" = some cs)
    (h3 : settings "xero_refresh_token" = some sv)
    (h4 : matchCount table "xero_refresh_token" ≤ 1) :
    (∀ nr, resp.refresh_token = some nr → nr ≠ "" → some nr ≠ sv →
      get_access_token_from_refresh settings table resp
          = Except.ok (resp.access_token,
              write_setting table "xero_refresh_token" nr) ∧
      dictGet (read_settings (write_setting table "xero_refresh_token" nr))
          "xero_refresh_token" = some (some nr) ∧
      ∀ q, q ≠ "xero_refresh_token" →
        dictGet
            (read_settings (write_setting table "xero_refresh_token" nr)) q
          = dictGet (read_settings table) q) ∧
    ((resp.refresh_token = none ∨ resp.refresh_token = some ""
        ∨ resp.refresh_token = sv) →
      get_access_token_from_refresh settings table resp
          = Except.ok (resp.access_token, table)) := by
  have hkey : pyStrip "xero_refresh_token" = "xero_refresh_token" := by decide
  constructor
  · intro nr hnr hne2 hdiff
    refine ⟨by simp [get_access_token_from_refresh, h1, h2, h3, hnr, hne2,
      hdiff], ?_, ?_⟩
    · have hx := read_all_spec_write_at table "xero_refresh_token" nr
        (by decide) (by decide) (by rw [hkey]; exact h4)
      rw [hkey] at hx
      rw [dictGet_read_settings, hx]
    · intro q hq
      rw [dictGet_read_settings, dictGet_read_settings]
      exact read_all_spec_write_frame table "xero_refresh_token" nr q
        (by rw [hkey]; exact hq)
  · intro hcase
    rcases hcase with hnone | hempty | heq
    · simp [get_access_token_from_refresh, h1, h2, h3, hnone]
    · simp [get_access_token_from_refresh, h1, h2, h3, hempty]
    · cases hsv : resp.refresh_token with
      | none => simp [get_access_token_from_refresh, h1, h2, h3, hsv]
      | some s =>
          rw [hsv] at heq
          simp [get_access_token_from_refresh, h1, h2, h3, hsv, ← heq]

/-- C2 witness: a concrete rotation with the new token `"new"` replacing
the stored `"old"` lands in the settings table and reads back. -/
theorem c2_refresh_persistence_witness :
    get_access_token_from_refresh wSettingsC2 wTableC2 ⟨"tok", some "new"⟩
        = Except.ok ("tok",
            write_setting wTableC2 "xero_refresh_token" "new") ∧
    dictGet (read_settings (write_setting wTableC2 "xero_refresh_token" "new"))
        "xero_refresh_token" = some (some "new") :=
  ⟨((c2_refresh_persistence wSettingsC2 wTableC2 ⟨"tok", some "new"⟩
      (some "id") (some "sec") (some "old") rfl rfl rfl (by decide)).1
      "new" rfl (by decide) (by decide)).1,
   ((c2_refresh_persistence wSettingsC2 wTableC2 ⟨"tok", some "new"⟩
      (some "id") (some "sec") (some "old") rfl rfl rfl (by decide)).1
      "new" rfl (by decide) (by decide)).2.1⟩

/-- C7, counterexample to the claim as stated: with every credential key
absent, the call fails with the generic key-lookup failure
`KeyError("xero_client_id")`, which is not a typed MissingCredential
error. -/
theorem c7_counterexample :
    get_access_token_from_refresh (fun _ => none) [] ⟨"tok", none⟩
        = Except.error (PyError.keyError "xero_client_id") ∧
    PyError.isMissingCredential (PyError.keyError "xero_client_id")
        = false :=
  ⟨rfl, rfl⟩

/-- C7 (amended): for every settings mapping lacking any of the keys
`xero_client_id`, `xero_client_secret`, `xero_refresh_token`, the call
fails with the generic key-lookup failure `KeyError` naming the first
missing key in lookup order — not with a typed MissingCredential error —
and it does so for every table and every possible token-endpoint
response, i.e. before the token-endpoint request is performed. -/
theorem c7_missing_credential (settings : String → Option (Option String))
    (h : settings "xero_client_id" = none
        ∨ settings "xero_client_secret" = none
        ∨ settings "xero_refresh_token" = none) :
    ∃ k, (k = "xero_client_id" ∨ k = "xero_client_secret"
        ∨ k = "xero_refresh_token") ∧
      PyError.isMissingCredential (PyError.keyError k) = false ∧
      ∀ (table : STable String) (resp : TokenResponse),
        get_access_token_from_refresh settings table resp
            = Except.error (PyError.keyError k) := by
  cases hc1 : settings "xero_client_id" with
  | none =>
      exact ⟨"xero_client_id", Or.inl rfl, rfl, fun table resp => by
        simp [get_access_token_from_refresh, hc1]⟩
  | some c1 =>
      cases hc2 : settings "xero_client_secret" with
      | none =>
          exact ⟨"xero_client_secret", Or.inr (Or.inl rfl), rfl,
            fun table resp => by
              simp [get_access_token_from_refresh, hc1, hc2]⟩
      | some c2 =>
          cases hc3 : settings "xero_refresh_token" with
          | none =>
              exact ⟨"xero_refresh_token", Or.inr (Or.inr rfl), rfl,
                fun table resp => by
                  simp [get_access_token_from_refresh, hc1, hc2, hc3]⟩
          | some c3 =>
              rw [hc1, hc2, hc3] at h
              rcases h with h | h | h <;> simp at h

/-- C7 witness: the all-absent settings mapping produces the key-lookup
failure for every table and response. -/
theorem c7_missing_credential_witness :
    ∃ k, (k = "xero_client_id" ∨ k = "xero_client_secret"
        ∨ k = "xero_refresh_token") ∧
      PyError.isMissingCredential (PyError.keyError k) = false ∧
      ∀ (table : STable String) (resp : TokenResponse),
        get_access_token_from_refresh (fun _ => none) table resp
            = Except.error (PyError.keyError k) :=
  c7_missing_credential (fun _ => none) (Or.inl rfl)

/-- C8, counterexample to the claim as stated: a present but empty
`sync_state` is neither `"scheduled"` nor `"syncing"`, yet it is not
passed through unchanged — the status becomes `"unknown"`. -/
theorem c8_counterexample :
    fivetran_status_sync_state (Except.ok ⟨some ""⟩) = "unknown" ∧
    ("unknown" : String) ≠ "" :=
  ⟨rfl, by decide⟩

/-- C8 (amended): `"scheduled"` maps to `"Not Syncing"`, `"syncing"` to
`"Syncing"`, any other non-empty value is passed through unchanged, while
an empty or absent `sync_state` yields `"unknown"`; an HTTP error is
caught and rendered as a status string prefixed `"Error:"` (the function
is total, so nothing propagates to the caller). -/
theorem c8_sync_status :
    fivetran_status_sync_state (Except.ok ⟨some "scheduled"⟩)
        = "Not Syncing" ∧
    fivetran_status_sync_state (Except.ok ⟨some "syncing"⟩) = "Syncing" ∧
    (∀ s : String, s ≠ "scheduled" → s ≠ "syncing" → s ≠ "" →
      fivetran_status_sync_state (Except.ok ⟨some s⟩) = s) ∧
    fivetran_status_sync_state (Except.ok ⟨some ""⟩) = "unknown" ∧
    fivetran_status_sync_state (Except.ok ⟨none⟩) = "unknown" ∧
    ∀ e : String, ∃ rest,
      fivetran_status_sync_state (Except.error e) = "Error:" ++ rest := by
  refine ⟨rfl, rfl, ?_, rfl, rfl, ?_⟩
  · intro s hs1 hs2 hs3
    simp [fivetran_status_sync_state, hs1, hs2, hs3]
  · intro e
    refine ⟨" " ++ e, ?_⟩
    show "Error: " ++ e = "Error:" ++ (" " ++ e)
    rw [← String.append_assoc]
    rfl

/-- C8 witness: a non-empty unmapped state passes through unchanged. -/
theorem c8_sync_status_witness :
    fivetran_status_sync_state (Except.ok ⟨some "paused"⟩) = "paused" :=
  c8_sync_status.2.2.1 "paused" (by decide) (by decide) (by decide)

/-- A conditional-append fold is the concatenation of the images of the
kept elements, in order. -/
theorem foldl_ite_append {α β : Type} (p : α → Bool) (g : α → List β)
    (l : List α) :
    ∀ init : List β,
      l.foldl (fun acc x => if p x then acc ++ g x else acc) init
        = init ++ (l.filter p).flatMap g := by
  induction l with
  | nil => intro init; simp
  | cons x xs ih =>
      intro init
      by_cases h : p x
      · simp [h, ih, List.filter_cons, List.append_assoc]
      · simp [h, ih, List.filter_cons]

/-- Flat-mapping singletons is mapping. -/
theorem flatMap_singleton_eq_map {α β : Type} (f : α → β) (l : List α) :
    l.flatMap (fun x => [f x]) = l.map f := by
  induction l with
  | nil => rfl
  | cons x xs ih => simp [ih]

/-- The source's positional `cells[-2]` / `cells[-1]` debit/credit
convention coincides with the claim's "second-to-last and last cell"
reading: the built row equals the claim-side row on every input. -/
theorem flatten_row_eq_spec_row (m : String → Option String) (sname : String)
    (ir : TBInnerRow) : flatten_row m sname ir.cells = spec_row m sname ir := by
  unfold flatten_row spec_row
  by_cases h2 : 2 ≤ ir.cells.length
  · have hlt : ¬ ir.cells.length < 2 := by omega
    have hlast : ir.cells[ir.cells.length - 1]? = ir.cells.getLast? :=
      (List.getLast?_eq_getElem? ir.cells).symm
    have hdl : ir.cells.dropLast.getLast? = ir.cells[ir.cells.length - 2]? := by
      rw [List.getLast?_eq_getElem? ir.cells.dropLast, List.length_dropLast,
        List.dropLast_eq_take, List.getElem?_take, if_pos (by omega),
        show ir.cells.length - 1 - 1 = ir.cells.length - 2 by omega]
    simp [h2, hlt, hlast, hdl]
  · have hlt : ir.cells.length < 2 := by omega
    simp [h2, hlt]

/-- The inner row loop of the flattener appends, in document order, one
claim-side row per child tagged "Row" with a non-empty cell list. -/
theorem flatten_inner_fold (m : String → Option String) (sname : String)
    (rows : List TBInnerRow) (init : List TBRowOut) :
    rows.foldl
      (fun acc inner =>
        if inner.rowType ≠ some "Row" then acc
        else if inner.cells = [] then acc
        else acc ++ [flatten_row m sname inner.cells])
      init
      = init ++
          (rows.filter
              (fun ir => decide (ir.rowType = some "Row" ∧ ir.cells ≠ []))).map
            (spec_row m sname) := by
  have hbody :
      (fun (acc : List TBRowOut) (inner : TBInnerRow) =>
        if inner.rowType ≠ some "Row" then acc
        else if inner.cells = [] then acc
        else acc ++ [flatten_row m sname inner.cells])
        = (fun (acc : List TBRowOut) (inner : TBInnerRow) =>
            if decide (inner.rowType = some "Row" ∧ inner.cells ≠ []) then
              acc ++ [flatten_row m sname inner.cells]
            else acc) := by
    funext acc inner
    by_cases hr : inner.rowType = some "Row"
    · by_cases hc : inner.cells = [] <;> simp [hr, hc]
    · simp [hr]
  rw [hbody, foldl_ite_append]
  congr 1
  rw [show (fun ir : TBInnerRow => [flatten_row m sname ir.cells])
      = (fun ir : TBInnerRow => [spec_row m sname ir]) from
    funext (fun ir => by rw [flatten_row_eq_spec_row])]
  exact flatMap_singleton_eq_map _ _

/-- The outer section loop of the flattener concatenates the per-section
row lists of the nodes tagged "Section", in document order. -/
theorem flatten_outer_fold (m : String → Option String)
    (secs : List TBSectionRow) (init : List TBRowOut) :
    secs.foldl
      (fun rows_out row =>
        if row.rowType ≠ some "Section" then rows_out
        else
          row.rows.foldl
            (fun acc inner =>
              if inner.rowType ≠ some "Row" then acc
              else if inner.cells = [] then acc
              else acc ++ [flatten_row m (row.title.getD "") inner.cells])
            rows_out)
      init
      = init ++
          (secs.filter (fun row => decide (row.rowType = some "Section"))).flatMap
            (fun sec =>
              ((sec.rows.filter
                  (fun ir =>
                    decide (ir.rowType = some "Row" ∧ ir.cells ≠ []))).map
                (spec_row m (sec.title.getD "")))) := by
  have hbody :
      (fun (rows_out : List TBRowOut) (row : TBSectionRow) =>
        if row.rowType ≠ some "Section" then rows_out
        else
          row.rows.foldl
            (fun acc inner =>
              if inner.rowType ≠ some "Row" then acc
              else if inner.cells = [] then acc
              else acc ++ [flatten_row m (row.title.getD "") inner.cells])
            rows_out)
        = (fun (rows_out : List TBRowOut) (row : TBSectionRow) =>
            if decide (row.rowType = some "Section") then
              rows_out ++
                ((row.rows.filter
                    (fun ir =>
                      decide (ir.rowType = some "Row" ∧ ir.cells ≠ []))).map
                  (spec_row m (row.title.getD "")))
            else rows_out) := by
    funext rows_out row
    by_cases hr : row.rowType = some "Section"
    · rw [if_neg (fun hcon => hcon hr), if_pos (by simp [hr]),
        flatten_inner_fold]
    · rw [if_pos hr, if_neg (by simp [hr])]
  rw [hbody, foldl_ite_append]

/-- C3: `_flatten_trial_balance` emits, in document order, exactly one
output row per child node tagged "Row" with a non-empty cell list inside a
top-level node tagged "Section" (zero-cell rows and non-"Row" children
contribute nothing), each output row carrying the section name, the
account name, code and identifier, and the debit and credit taken from
the second-to-last and last cell values (empty strings when the row has
fewer than two cells) — the output equals the filter/flatMap of the
claim-side `spec_row` over the first report; in particular the spec's
concrete example flattens to exactly
`["guid-1", "404", "Assets", "Bank Fees (404)", 100, 0]`. -/
theorem c3_flatten_postcondition :
    (∀ (tb : TBJson) (m : String → Option String),
      flatten_trial_balance tb m
        = (match tb.reports with
           | [] => []
           | report :: _ =>
               (report.rows.filter
                   (fun row => decide (row.rowType = some "Section"))).flatMap
                 (fun sec =>
                   ((sec.rows.filter
                       (fun ir =>
                         decide (ir.rowType = some "Row" ∧
                           ir.cells ≠ []))).map
                     (spec_row m (sec.title.getD "")))))) ∧
    flatten_trial_balance
        ⟨[⟨none, [],
            [⟨some "Section", some "Assets",
              [⟨some "Row",
                [⟨some (CVal.s "Bank Fees (404)"), []⟩,
                  ⟨some (CVal.n 100), []⟩, ⟨some (CVal.n 0), []⟩]⟩]⟩]⟩]⟩
        (fun c => if c = "404" then some "guid-1" else none)
        = [⟨"guid-1", "404", "Assets", CVal.s "Bank Fees (404)",
            CVal.n 100, CVal.n 0⟩] := by
  constructor
  · intro tb m
    rcases tb with ⟨reports⟩
    cases reports with
    | nil => rfl
    | cons report rest =>
        have h1 : flatten_trial_balance ⟨report :: rest⟩ m
            = report.rows.foldl
                (fun rows_out row =>
                  if row.rowType ≠ some "Section" then rows_out
                  else
                    row.rows.foldl
                      (fun acc inner =>
                        if inner.rowType ≠ some "Row" then acc
                        else if inner.cells = [] then acc
                        else acc ++
                          [flatten_row m (row.title.getD "") inner.cells])
                      rows_out)
                [] := rfl
        rw [h1, flatten_outer_fold]
        rfl
  · rfl

/-- The attribute fold of the code resolver keeps the value of the last
attribute named "AccountCode", falling back to the initial value. -/
theorem account_code_foldl (attrs : List TBAttr) :
    ∀ init : String,
      attrs.foldl
        (fun acc attr =>
          if attr.name = some "AccountCode" then attr.value else acc)
        init
        = (match lastAccountCodeAttr attrs with
           | some v => v
           | none => init) := by
  induction attrs with
  | nil => intro init; rfl
  | cons a rest ih =>
      intro init
      by_cases h : a.name = some "AccountCode"
      · rw [List.foldl_cons, if_pos h, ih a.value]
        cases hrest : lastAccountCodeAttr rest <;>
          simp [lastAccountCodeAttr, hrest, h]
      · rw [List.foldl_cons, if_neg h, ih init]
        cases hrest : lastAccountCodeAttr rest <;>
          simp [lastAccountCodeAttr, hrest, h]

/-- C4, counterexample to the claim as stated: the cell carries an
`AccountCode` attribute (with the empty value), yet the flattener resolves
the account code from the parenthetical fallback to `"404"` rather than
taking it from the attribute. -/
theorem c4_counterexample :
    flatten_trial_balance
        ⟨[⟨none, [],
            [⟨some "Section", some "S",
              [⟨some "Row",
                [⟨some (CVal.s "Bank Fees (404)"),
                  [⟨some "AccountCode", ""⟩]⟩]⟩]⟩]⟩]⟩
        (fun _ => none)
        = [⟨"", "404", "S", CVal.s "Bank Fees (404)", CVal.s "", CVal.s ""⟩] ∧
    ("404" : String) ≠ "" :=
  ⟨rfl, by decide⟩

/-- C4 (amended): the account code is taken from the value of the last
attribute named "AccountCode" when that value is non-empty; when there is
no such attribute, or its (last) value is empty, it falls back to the
trailing parenthesised token of the account name, stripped; when neither
source yields a code it is the empty string (the `parenCode` fallback
returning `none`).  In particular an attribute value `"999"` beats the
parenthetical `"404"`, and with no attributes `"Bank Fees (404)"` resolves
to `"404"`. -/
theorem c4_account_code_resolution (name : String) (attrs : List TBAttr) :
    (∀ v, lastAccountCodeAttr attrs = some v → v ≠ "" →
      account_code_of (CVal.s name) attrs = v) ∧
    ((lastAccountCodeAttr attrs = none ∨ lastAccountCodeAttr attrs = some "") →
      account_code_of (CVal.s name) attrs
        = (match parenCode name with
           | some c => pyStrip c
           | none => "")) ∧
    account_code_of (CVal.s "Bank Fees (404)")
        [⟨some "AccountCode", "999"⟩] = "999" ∧
    account_code_of (CVal.s "Bank Fees (404)") [] = "404" := by
  refine ⟨?_, ?_, rfl, rfl⟩
  · intro v hv hvne
    simp only [account_code_of]
    rw [account_code_foldl, hv]
    simp [hvne]
  · intro hcase
    simp only [account_code_of]
    rw [account_code_foldl]
    rcases hcase with h | h <;> simp [h]

/-- C4 witness: a non-empty attribute value is returned as the code even
though the name carries a different parenthesised token. -/
theorem c4_account_code_resolution_witness :
    account_code_of (CVal.s "X (1)") [⟨some "AccountCode", "77"⟩] = "77" :=
  (c4_account_code_resolution "X (1)" [⟨some "AccountCode", "77"⟩]).1
    "77" rfl (by decide)

/-- C9: both `_flatten_trial_balance` and `_get_tb_meta` read only the
first element of the `Reports` list — any further reports are ignored
entirely — and with an empty (or absent, modelled as empty) list the
flattener returns `[]` and the metadata extractor returns
`("", fallback_date)` without error. -/
theorem c9_first_report_only (m : String → Option String) (fb : String)
    (r : TBReport) (rest : List TBReport) :
    flatten_trial_balance ⟨r :: rest⟩ m = flatten_trial_balance ⟨[r]⟩ m ∧
    get_tb_meta ⟨r :: rest⟩ fb = get_tb_meta ⟨[r]⟩ fb ∧
    flatten_trial_balance ⟨[]⟩ m = [] ∧
    get_tb_meta ⟨[]⟩ fb = ("", fb) :=
  ⟨rfl, rfl, rfl, rfl⟩

/-- C5, counterexample to the claim as stated: the document carries the
explicit report date `"2020-03-31"`, so per the claim the title list
would not be scanned and the date would be `"2020-03-31"`; the code scans
the titles regardless and the `"As at"` title overwrites the explicit
date. -/
theorem c5_counterexample :
    get_tb_meta
        ⟨[⟨some "2020-03-31",
            [some "Trial Balance", some "Acme Corp",
              some "As at 31 March 2020"], []⟩]⟩ "FB"
        = ("Acme Corp", "31 March 2020") ∧
    ("31 March 2020" : String) ≠ "2020-03-31" :=
  ⟨rfl, by decide⟩

/-- C5 (amended): organisation name defaults to empty and the report date
to the fallback; the title list is scanned in every case: the title at
index 1, when present and truthy, becomes the organisation name, and the
first title containing "As at" has its trailing portion trimmed and, when
non-empty, used as the report date — overriding even an explicit
report-date field; when no title matches, a truthy explicit report-date
field overrides the fallback.  The claim's concrete example holds. -/
theorem c5_tb_meta (report : TBReport) (rest : List TBReport) (fb : String) :
    ((get_tb_meta ⟨report :: rest⟩ fb).1
        = (match report.reportTitles[1]? with
           | some (some t) => if t = "" then "" else t
           | _ => "")) ∧
    (findAsAt report.reportTitles = none →
      (get_tb_meta ⟨report :: rest⟩ fb).2
          = (match report.reportDate with
             | some rd => if rd = "" then fb else rd
             | none => fb)) ∧
    (∀ restStr, findAsAt report.reportTitles = some restStr →
      pyStrip restStr ≠ "" →
      (get_tb_meta ⟨report :: rest⟩ fb).2 = pyStrip restStr) ∧
    get_tb_meta
        ⟨[⟨none,
            [some "Trial Balance", some "Acme Corp",
              some "As at 31 March 2020"], []⟩]⟩ "FB"
        = ("Acme Corp", "31 March 2020") := by
  refine ⟨?_, ?_, ?_, rfl⟩
  · show (if 2 ≤ report.reportTitles.length then
          match report.reportTitles[1]? with
          | some (some t) => if t = "" then "" else t
          | _ => ""
        else "")
        = (match report.reportTitles[1]? with
           | some (some t) => if t = "" then "" else t
           | _ => "")
    by_cases h2 : 2 ≤ report.reportTitles.length
    · rw [if_pos h2]
    · rw [if_neg h2, List.getElem?_eq_none (by omega)]
  · intro hfind
    show (match findAsAt report.reportTitles with
          | some rr =>
              if pyStrip rr = "" then
                (match report.reportDate with
                 | some rd => if rd = "" then fb else rd
                 | none => fb)
              else pyStrip rr
          | none =>
              match report.reportDate with
              | some rd => if rd = "" then fb else rd
              | none => fb)
        = (match report.reportDate with
           | some rd => if rd = "" then fb else rd
           | none => fb)
    rw [hfind]
  · intro restStr hfind hne
    show (match findAsAt report.reportTitles with
          | some rr =>
              if pyStrip rr = "" then
                (match report.reportDate with
                 | some rd => if rd = "" then fb else rd
                 | none => fb)
              else pyStrip rr
          | none =>
              match report.reportDate with
              | some rd => if rd = "" then fb else rd
              | none => fb)
        = pyStrip restStr
    rw [hfind]
    simp [hne]

/-- C5 witness: the concrete report carrying the explicit date and the
"As at" title takes the title-derived date. -/
theorem c5_tb_meta_witness :
    (get_tb_meta
        ⟨[⟨some "2020-03-31",
            [some "Trial Balance", some "Acme Corp",
              some "As at 31 March 2020"], []⟩]⟩ "FB").2
      = pyStrip " 31 March 2020" :=
  (c5_tb_meta
      ⟨some "2020-03-31",
        [some "Trial Balance", some "Acme Corp",
          some "As at 31 March 2020"], []⟩ [] "FB").2.2.1
    " 31 March 2020" rfl (by decide)
